import Mathlib

/-!
Verification of the machinarium-spiders-puzzle core against its
natural-language specification.  The definitions below are a shallow
embedding of the Python sources under `src/`:

* `src/braillify.py`  — the bitmap-to-Braille rasterizer,
* `src/objects.py`    — hitboxes, player input, the object manager,
* `src/physics.py`    — the mask-overlap collision test,
* `src/game.py`       — the event resolver,
* `src/graphics.py`   — the animated-sprite frame logic and the canvas.

NumPy 2-D arrays are modelled as a `Frame` (height, width and a
row-major access function); fallible Python code (exceptions such as
`ValueError`, `AttributeError`, `TypeError`, `AssertionError`) is
modelled with `Except String`.  Wall-clock deltas (Python floats) are
modelled with exact rationals; only the frame-index logic, not float
rounding, is at stake in the claims about them.
-/

namespace Machinarium

/-- A NumPy 2-D `uint8` array: `height` rows by `width` columns, with
`px r c` giving the entry in row `r`, column `c` (row-major, origin
top-left, as in `Canvas.frame`). -/
structure Frame where
  height : Nat
  width : Nat
  px : Nat → Nat → Nat

/-- `PIXEL_MAP` from `braillify.py`: bit value of the Braille dot in
row `i` (0..3), column `j` (0..1) of a 2x4 cell. -/
def pixelMap (i j : Nat) : Nat :=
  (([[0x01, 0x08], [0x02, 0x10], [0x04, 0x20], [0x40, 0x80]].getD i []).getD j 0)

/-- Python `range(0, stop, step)` for a positive step: the multiples of
`step` below `stop`. -/
def stepRange (stop step : Nat) : List Nat :=
  (List.range ((stop + step - 1) / step)).map (· * step)

/-- The NumPy slice `frame[row:row+4, col:col+2]` taken by `braillify`:
clipped at the array bounds, so a partial cell has fewer than 4 rows or
fewer than 2 columns. -/
def Frame.cellSlice (f : Frame) (row col : Nat) : Frame :=
  ⟨min 4 (f.height - row), min 2 (f.width - col),
   fun i j => f.px (row + i) (col + j)⟩

/-- NumPy broadcast indexing of an axis of size `n` against an axis of
size 4 or 2: an axis of size 1 is read at index 0 for every position. -/
def broadcastIdx (n i : Nat) : Nat := if n = 1 then 0 else i

/-- `np.sum(cell * PIXEL_MAP)` for a cell whose shape broadcasts
against the 4x2 `PIXEL_MAP`. -/
def cellValue (cell : Frame) : Nat :=
  ∑ i ∈ Finset.range 4, ∑ j ∈ Finset.range 2,
    cell.px (broadcastIdx cell.height i) (broadcastIdx cell.width j) * pixelMap i j

/-- `braille_cell(cell, bg_char)` from `braillify.py`.  The elementwise
product `cell * PIXEL_MAP` follows NumPy broadcasting: a cell of shape
`(r, c)` multiplies against the 4x2 map only when `r` is 4 or 1 and `c`
is 2 or 1; any other shape raises a `ValueError`.  The glyph is
returned as its codepoint (`chr` is left to the presentation layer);
`bg` is the optional background character codepoint. -/
def braille_cell (cell : Frame) (bg : Option Nat) : Except String Nat :=
  if (cell.height = 4 ∨ cell.height = 1) ∧ (cell.width = 2 ∨ cell.width = 1) then
    let value := cellValue cell
    match bg with
    | some b => if value = 0 then .ok b else .ok (0x2800 + value)
    | none => .ok (0x2800 + value)
  else
    .error "ValueError: operands could not be broadcast together"

/-- A Python `for` loop that accumulates results and propagates the
first raised exception. -/
def mapE (f : α → Except String β) : List α → Except String (List β)
  | [] => .ok []
  | x :: xs => do
    let y ← f x
    let ys ← mapE f xs
    .ok (y :: ys)

/-- `braillify(frame)` from `braillify.py`: one list of glyph
codepoints per output row, cells taken every 4 rows and every 2
columns.  Note the source function takes no inverse flag (the file
carries a TODO that inverse mode is unimplemented). -/
def braillify (f : Frame) : Except String (List (List Nat)) :=
  mapE (fun row =>
    mapE (fun col => braille_cell (f.cellSlice row col) none) (stepRange f.width 2))
    (stepRange f.height 4)

/-! ### Canvas rasterization call (`graphics.py`, `Canvas.update`)

`Canvas.update` calls `braillify(visible_area, self.inverse)`.  The
Python `braillify` definition takes a single positional parameter, so
the call protocol is modelled explicitly: a call with an argument list
that is not exactly one frame raises a `TypeError` before the body of
`braillify` runs. -/

/-- A positional argument in a call to `braillify`. -/
inductive BrailleArg where
  | frameArg (f : Frame)
  | flagArg (b : Bool)

/-- A Python call of `braillify` on a positional argument list: the
definition `def braillify(frame)` binds exactly one parameter, so any
other arity is a `TypeError`. -/
def braillifyCall (args : List BrailleArg) : Except String (List (List Nat)) :=
  match args with
  | [BrailleArg.frameArg f] => braillify f
  | _ => .error "TypeError: braillify takes 1 positional argument"

/-- The NumPy slice `frame[:, camX:camX+drawWidth]` taken by
`Canvas.update` (camera offsets are non-negative in the game). -/
def visibleArea (f : Frame) (camX drawWidth : Nat) : Frame :=
  ⟨f.height, min (camX + drawWidth) f.width - min camX f.width,
   fun i j => f.px i (min camX f.width + j)⟩

/-- The rasterization step of `Canvas.update`: both canvas modes call
`braillify(visible_area, self.inverse)` with two positional
arguments. -/
def canvasUpdateRows (f : Frame) (inverse : Bool) (camX drawWidth : Nat) :
    Except String (List (List Nat)) :=
  braillifyCall [.frameArg (visibleArea f camX drawWidth), .flagArg inverse]

/-! ### Hitboxes and textures (`objects.py`, `textures.py`) -/

/-- A `Hitbox` from `objects.py`: a binary mask with its own `width`
and `height` fields; `data r c` reads the mask array at first index
`r`, second index `c`. -/
structure Hitbox where
  width : Nat
  height : Nat
  data : Nat → Nat → Nat

/-- A `Texture` from `textures.py`.  `mask r c f` reads the opacity
mask at row `r`, column `c`, frame `f`; single-frame textures have a
2-D mask (`ndim = 2`, read at frame index 0), GIF textures a 3-D one
(`ndim = 3`, frame axis last, as built by `np.dstack`). -/
structure Texture where
  width : Nat
  height : Nat
  frames : Nat
  ndim : Nat
  mask : Nat → Nat → Nat → Nat

/-- `Hitbox.from_texture` from `objects.py`: the mask thresholded
above zero, where a mask of more than two dimensions is first summed
along the frame axis (`mask.sum(axis=2) > 0`); the resulting `Hitbox`
is constructed as `Hitbox(texture.height, texture.width, mask)`. -/
def Hitbox.from_texture (t : Texture) : Hitbox :=
  let m : Nat → Nat → Bool :=
    if 2 < t.ndim then
      fun r c => 0 < ∑ f ∈ Finset.range t.frames, t.mask r c f
    else
      fun r c => 0 < t.mask r c 0
  ⟨t.height, t.width, fun r c => if m r c then 1 else 0⟩

/-! ### Collision test (`physics.py`, `collide`) -/

/-- What `collide` reads from an object: its derived top-left corner
`(x, y)` and its hitbox. -/
structure PhysObj where
  x : Int
  y : Int
  hitbox : Hitbox

/-- The contribution of one object to the accumulator cell `(i, j)` of
the union box with the given `left`/`top`: its hitbox value there if
the cell lies inside the slice
`container[objLeft:objLeft+width, objTop:objTop+height]`, else 0. -/
def contrib (o : PhysObj) (left top : Int) (i j : Nat) : Nat :=
  let u : Int := (i : Int) - (o.x - left)
  let v : Int := (j : Int) - (o.y - top)
  if 0 ≤ u ∧ u < o.hitbox.width ∧ 0 ≤ v ∧ v < o.hitbox.height then
    o.hitbox.data u.toNat v.toNat
  else 0

/-- The boolean result of `collide(obj, other)` from `physics.py`:
build the union bounding box, add both hitbox masks into a shared
accumulator, and report a collision iff some cell exceeds 1
(`np.any(container > 1)`).  The returned contact point (a
floating-point centroid, used only to place explosion effects) is not
modelled; the claims concern the boolean. -/
def collide (o1 o2 : PhysObj) : Bool :=
  let top := min o1.y o2.y
  let left := min o1.x o2.x
  let bottom := max (o1.y + o1.hitbox.height) (o2.y + o2.hitbox.height)
  let right := max (o1.x + o1.hitbox.width) (o2.x + o2.hitbox.width)
  let width := (right - left).toNat
  let height := (bottom - top).toNat
  (List.range width).any fun i =>
    (List.range height).any fun j =>
      1 < contrib o1 left top i j + contrib o2 left top i j

/-! ### Objects, the manager and the resolver
(`objects.py`, `events.py`, `game.py`) -/

/-- The `kind` tag of a game object. -/
inductive Kind where
  | Player | Bullet | Block | Enemy | Goal | Explosion
deriving DecidableEq, Repr

/-- A game object as the resolver sees it: Python object identity is
modelled by the `id` field, and the center position `(xc, yc)` is what
`resolve_collision` reads to place an explosion. -/
structure GameObj where
  id : Nat
  kind : Kind
  xc : Int
  yc : Int
deriving DecidableEq, Repr

/-- `ObjectManager.objects`: a `defaultdict` from kind to the ordered
list of live objects of that kind (missing kinds read as `[]`). -/
structure ObjectManager where
  objects : Kind → List GameObj

/-- Python `list.remove(x)`: delete the first occurrence of `x`, or
raise `ValueError` when `x` is not in the list. -/
def listRemove (a : GameObj) : List GameObj → Except String (List GameObj)
  | [] => .error "ValueError: list.remove(x): x not in list"
  | x :: xs =>
    if x = a then .ok xs
    else (listRemove a xs).map (x :: ·)

/-- `ObjectManager.add_object`: appends to the kind's list, after the
assertion that at most one `Player` is ever live. -/
def ObjectManager.add_object (m : ObjectManager) (o : GameObj) :
    Except String ObjectManager :=
  if o.kind = Kind.Player ∧ m.objects Kind.Player ≠ [] then
    .error "AssertionError: Player must be unique"
  else
    .ok ⟨fun k => if k = o.kind then m.objects k ++ [o] else m.objects k⟩

/-- `ObjectManager.remove_object`: `self.objects[kind].remove(object)`,
with `list.remove` raising when the object is absent. -/
def ObjectManager.remove_object (m : ObjectManager) (o : GameObj) :
    Except String ObjectManager :=
  (listRemove o (m.objects o.kind)).map
    fun l => ⟨fun k => if k = o.kind then l else m.objects k⟩

/-- A `CollisionEvent` as consumed by `resolve_collision` (the contact
position it also carries is never read by the resolver and is not
modelled). -/
structure CollisionEvent where
  collider : GameObj
  collided : GameObj

/-- The game state the resolver mutates: the object manager, the match
result, the run flag, the log of sounds passed to `SoundManager.play`
(most recent last) and a counter supplying the identity of freshly
constructed objects. -/
structure GameState where
  manager : ObjectManager
  result : Option Bool
  isRunning : Bool
  sounds : List String
  nextId : Nat

/-- Attribute access `CollisionTypes.<name>.value` on the enum in
`events.py`.  The enum defines only `BULLET_BLOCK` and `BULLET_ENEMY`;
any other member access raises `AttributeError`. -/
def collisionTypesValue (name : String) : Except String (Kind × Kind) :=
  if name = "BULLET_BLOCK" then .ok (Kind.Bullet, Kind.Block)
  else if name = "BULLET_ENEMY" then .ok (Kind.Bullet, Kind.Enemy)
  else .error ("AttributeError: type object CollisionTypes has no attribute " ++ name)

/-- `Game.resolve_collision` from `game.py`, with the `elif` chain and
its enum member accesses evaluated in source order: the explosion
object is created up front from the collider's center; each branch
guard first evaluates `CollisionTypes.<member>.value` (which raises
for the `PLAYER_*` members, absent from `events.py`) and then compares
it to the kind pair.  The final duplicate `BULLET_ENEMY` branch of the
source is kept, followed by the `ValueError` for unknown pairs. -/
def resolve_collision (g : GameState) (c : CollisionEvent) :
    Except String GameState := do
  let obj1 := c.collider
  let obj2 := c.collided
  let typ := (obj1.kind, obj2.kind)
  let explosion : GameObj := ⟨g.nextId, Kind.Explosion, obj1.xc, obj1.yc⟩
  let bb ← collisionTypesValue "BULLET_BLOCK"
  if typ = bb then do
    let m ← g.manager.remove_object obj1
    let m ← m.add_object explosion
    return { g with manager := m, nextId := g.nextId + 1,
                    sounds := g.sounds ++ ["block_hit"] }
  else do
    let be ← collisionTypesValue "BULLET_ENEMY"
    if typ = be then do
      let m ← g.manager.remove_object obj1
      let m ← m.remove_object obj2
      let m ← m.add_object explosion
      return { g with manager := m, nextId := g.nextId + 1,
                      sounds := g.sounds ++ ["player_hit"] }
    else do
      let pe ← collisionTypesValue "PLAYER_ENEMY"
      if typ = pe then do
        let m ← g.manager.remove_object obj1
        let m ← m.add_object explosion
        return { g with manager := m, nextId := g.nextId + 1,
                        result := some false, isRunning := false,
                        sounds := g.sounds ++ ["player_hit"] }
      else do
        let pb ← collisionTypesValue "PLAYER_BLOCK"
        if typ = pb then do
          let m ← g.manager.remove_object obj1
          let m ← m.add_object explosion
          return { g with manager := m, nextId := g.nextId + 1,
                          result := some false, isRunning := false,
                          sounds := g.sounds ++ ["player_hit"] }
        else do
          let pg ← collisionTypesValue "PLAYER_GOAL"
          if typ = pg then do
            let m ← g.manager.remove_object obj1
            return { g with manager := m, nextId := g.nextId + 1,
                            result := some true, isRunning := false }
          else do
            let be2 ← collisionTypesValue "BULLET_ENEMY"
            if typ = be2 then do
              let m ← g.manager.remove_object obj1
              let m ← m.remove_object obj2
              return { g with manager := m, nextId := g.nextId + 1,
                              sounds := g.sounds ++ ["spider_hit"] }
            else
              .error "ValueError: bad collision type"

/-! ### Player input (`objects.py`, `Player.process_input`) -/

/-- What `Player.process_input` reads and writes: the vertical center
`yc` and the bounds `ymin`/`ymax` fixed at construction. -/
structure PlayerState where
  yc : Int
  ymin : Int
  ymax : Int
deriving DecidableEq, Repr

/-- An event returned from input processing (`PlayerShootEvent`). -/
inductive PEvent where
  | shoot
deriving DecidableEq, Repr

/-- `Player.in_bounds(yc)`: `ymin <= yc < ymax`. -/
def in_bounds (p : PlayerState) (yc : Int) : Bool :=
  decide (p.ymin ≤ yc ∧ yc < p.ymax)

/-- `Player.process_input(key)`: `w` (119) moves up one pixel and `s`
(115) moves down one pixel, each only when the destination is in
bounds; space (32) emits a shoot event; any other key does nothing. -/
def process_input (p : PlayerState) (key : Int) : PlayerState × List PEvent :=
  if key = 119 ∧ in_bounds p (p.yc - 1) then ({ p with yc := p.yc - 1 }, [])
  else if key = 115 ∧ in_bounds p (p.yc + 1) then ({ p with yc := p.yc + 1 }, [])
  else if key = 32 then (p, [PEvent.shoot])
  else (p, [])

/-! ### Animated sprites (`graphics.py`, `AnimatedSprite.update`) -/

/-- Animation mode of an `AnimatedSprite`; the constructor rejects any
string other than `repeat` and `stop`. -/
inductive AnimMode where
  | repeatMode
  | stopMode
deriving DecidableEq, Repr

/-- The state `AnimatedSprite.update` reads and writes.  `updateTime`
is `1.0 / fps`; `elapsed` and the frame deltas are modelled as exact
rationals. -/
structure AnimatedSprite where
  frames : Nat
  updateTime : ℚ
  mode : AnimMode
  currentFrame : Int
  elapsed : ℚ

/-- `AnimatedSprite.update(delta)`: accumulate elapsed time; once it
reaches `updateTime`, consume it and advance the frame; past the last
frame, `repeat` wraps to 0 (returning `true`) and `stop` steps back to
the last frame and returns `false`. -/
def AnimatedSprite.update (s : AnimatedSprite) (delta : ℚ) :
    AnimatedSprite × Bool :=
  let elapsed := s.elapsed + delta
  if elapsed < s.updateTime then
    ({ s with elapsed := elapsed }, true)
  else
    let elapsed := elapsed - s.updateTime
    let cf := s.currentFrame + 1
    if cf < (s.frames : Int) then
      ({ s with elapsed := elapsed, currentFrame := cf }, true)
    else
      match s.mode with
      | AnimMode.repeatMode =>
        ({ s with elapsed := elapsed, currentFrame := 0 }, true)
      | AnimMode.stopMode =>
        ({ s with elapsed := elapsed, currentFrame := cf - 1 }, false)

/-! ## Helper lemmas -/

theorem okBind (a : α) (f : α → Except String β) :
    (Except.ok a : Except String α) >>= f = f a := rfl

theorem errBind (msg : String) (f : α → Except String β) :
    (Except.error msg : Except String α) >>= f = Except.error msg := rfl

theorem mapE_map (f : β → Except String γ) (g : α → β) (xs : List α) :
    mapE f (xs.map g) = mapE (fun x => f (g x)) xs := by
  induction xs with
  | nil => rfl
  | cons x xs ih => simp only [List.map_cons, mapE, ih]

theorem mapE_ok_of_forall {f : α → Except String β} {g : α → β} :
    ∀ {xs : List α}, (∀ x ∈ xs, f x = .ok (g x)) → mapE f xs = .ok (xs.map g) := by
  intro xs
  induction xs with
  | nil => intro _; rfl
  | cons x xs ih =>
    intro h
    simp only [mapE, h x (List.mem_cons_self x xs), okBind,
      ih (fun y hy => h y (List.mem_cons_of_mem x hy)), List.map_cons]

theorem mapE_ok_elem {f : α → Except String β} :
    ∀ {xs : List α} {ys : List β}, mapE f xs = .ok ys → ∀ x ∈ xs, ∃ y, f x = .ok y := by
  intro xs
  induction xs with
  | nil => intro ys _ x hx; cases hx
  | cons a xs ih =>
    intro ys hok x hx
    rcases hfa : f a with msg | y
    · rw [mapE, hfa, errBind] at hok; cases hok
    · rw [mapE, hfa, okBind] at hok
      rcases hrest : mapE f xs with msg | ys'
      · rw [hrest, errBind] at hok; cases hok
      · rcases List.mem_cons.1 hx with h | h
        · exact ⟨y, h ▸ hfa⟩
        · exact ih hrest x h

theorem listRemove_of_mem {a : GameObj} :
    ∀ {xs : List GameObj}, a ∈ xs → listRemove a xs = .ok (xs.erase a) := by
  intro xs
  induction xs with
  | nil => intro h; cases h
  | cons x xs ih =>
    intro h
    by_cases hx : x = a
    · simp [listRemove, hx, List.erase_cons]
    · have ha : a ∈ xs := by
        rcases List.mem_cons.1 h with h' | h'
        · exact absurd h'.symm hx
        · exact h'
      simp [listRemove, hx, List.erase_cons, ih ha, Except.map]

theorem listRemove_of_not_mem {a : GameObj} :
    ∀ {xs : List GameObj}, a ∉ xs →
      listRemove a xs = .error "ValueError: list.remove(x): x not in list" := by
  intro xs
  induction xs with
  | nil => intro _; rfl
  | cons x xs ih =>
    intro h
    have hx : ¬ x = a := fun he => h (he ▸ List.mem_cons_self x xs)
    have ha : a ∉ xs := fun he => h (List.mem_cons_of_mem x he)
    simp [listRemove, hx, ih ha, Except.map]

/-! ## Claims about the collision test and the object model -/

/-- C8: for every two objects with a position and a binary hitbox
mask, the boolean overlap result of `collide(A, B)` equals that of
`collide(B, A)` — the collision predicate is symmetric. -/
theorem C8_collide_symmetric (o1 o2 : PhysObj) : collide o1 o2 = collide o2 o1 := by
  unfold collide
  rw [min_comm o1.y o2.y, min_comm o1.x o2.x,
    max_comm (o1.y + (o1.hitbox.height : Int)) (o2.y + (o2.hitbox.height : Int)),
    max_comm (o1.x + (o1.hitbox.width : Int)) (o2.x + (o2.hitbox.width : Int))]
  dsimp only
  congr 1
  funext i
  congr 1
  funext j
  rw [Nat.add_comm]

/-- C9: the player's vertical center stays within its configured
bounds: from `ymin <= yc < ymax`, processing any key keeps
`ymin <= yc < ymax`, and a move whose destination is out of bounds is
not applied. -/
theorem C9_player_input_preserves_bounds (p : PlayerState) (key : Int)
    (h1 : p.ymin ≤ p.yc) (h2 : p.yc < p.ymax) :
    (p.ymin ≤ (process_input p key).1.yc ∧ (process_input p key).1.yc < p.ymax)
    ∧ (in_bounds p (p.yc - 1) = false → (process_input p key).1.yc = p.yc ∨
        (process_input p key).1.yc = p.yc + 1)
    ∧ (in_bounds p (p.yc + 1) = false → (process_input p key).1.yc = p.yc ∨
        (process_input p key).1.yc = p.yc - 1) := by
  unfold process_input in_bounds
  split_ifs with hw hs hsp <;> simp_all

/-- C9 witness: a concrete player at `yc = 5` with bounds `[0, 10)`,
processing the move-up key. -/
theorem C9_witness :
    ((PlayerState.mk 5 0 10).ymin ≤ (process_input ⟨5, 0, 10⟩ 119).1.yc ∧
      (process_input ⟨5, 0, 10⟩ 119).1.yc < (PlayerState.mk 5 0 10).ymax)
    ∧ (in_bounds ⟨5, 0, 10⟩ ((PlayerState.mk 5 0 10).yc - 1) = false →
        (process_input ⟨5, 0, 10⟩ 119).1.yc = (PlayerState.mk 5 0 10).yc ∨
        (process_input ⟨5, 0, 10⟩ 119).1.yc = (PlayerState.mk 5 0 10).yc + 1)
    ∧ (in_bounds ⟨5, 0, 10⟩ ((PlayerState.mk 5 0 10).yc + 1) = false →
        (process_input ⟨5, 0, 10⟩ 119).1.yc = (PlayerState.mk 5 0 10).yc ∨
        (process_input ⟨5, 0, 10⟩ 119).1.yc = (PlayerState.mk 5 0 10).yc - 1) :=
  C9_player_input_preserves_bounds ⟨5, 0, 10⟩ 119 (by decide) (by decide)

/-- C10: `AnimatedSprite.update` keeps the frame index in
`[0, frames-1]`; when the timer fires on the last frame, `stop` mode
stays clamped at `frames - 1` and returns `false`, while `repeat` mode
wraps to 0 and returns `true`. -/
theorem C10_sprite_update_frame_in_range (s : AnimatedSprite) (delta : ℚ)
    (hf : 1 ≤ s.frames) (h0 : 0 ≤ s.currentFrame)
    (h1 : s.currentFrame ≤ (s.frames : Int) - 1) :
    (0 ≤ (s.update delta).1.currentFrame ∧
      (s.update delta).1.currentFrame ≤ (s.frames : Int) - 1)
    ∧ (¬ s.elapsed + delta < s.updateTime → s.currentFrame = (s.frames : Int) - 1 →
        (s.mode = AnimMode.stopMode →
          (s.update delta).1.currentFrame = (s.frames : Int) - 1 ∧
          (s.update delta).2 = false)
        ∧ (s.mode = AnimMode.repeatMode →
          (s.update delta).1.currentFrame = 0 ∧ (s.update delta).2 = true)) := by
  unfold AnimatedSprite.update
  dsimp only
  split_ifs with ht hcf
  · exact ⟨⟨h0, h1⟩, fun hc => absurd ht hc⟩
  · exact ⟨⟨by dsimp only; omega, by dsimp only; omega⟩,
      fun _ hlast => absurd hcf (by omega)⟩
  · cases hm : s.mode
    · exact ⟨⟨by dsimp only; omega, by dsimp only; omega⟩,
        fun _ _ => ⟨fun hstop => (nomatch hstop), fun _ => ⟨rfl, rfl⟩⟩⟩
    · exact ⟨⟨by dsimp only; omega, by dsimp only; omega⟩,
        fun _ _ => ⟨fun _ => ⟨by dsimp only; omega, rfl⟩, fun hrep => (nomatch hrep)⟩⟩

/-- C10 witness: a one-frame sprite in `stop` mode whose timer fires. -/
theorem C10_witness :
    (0 ≤ ((AnimatedSprite.mk 1 1 AnimMode.stopMode 0 1).update 1).1.currentFrame ∧
      ((AnimatedSprite.mk 1 1 AnimMode.stopMode 0 1).update 1).1.currentFrame ≤
        ((1 : Nat) : Int) - 1)
    ∧ (¬ (1 : ℚ) + 1 < 1 → (0 : Int) = ((1 : Nat) : Int) - 1 →
        ((AnimatedSprite.mk 1 1 AnimMode.stopMode 0 1).mode = AnimMode.stopMode →
          ((AnimatedSprite.mk 1 1 AnimMode.stopMode 0 1).update 1).1.currentFrame =
            ((1 : Nat) : Int) - 1 ∧
          ((AnimatedSprite.mk 1 1 AnimMode.stopMode 0 1).update 1).2 = false)
        ∧ ((AnimatedSprite.mk 1 1 AnimMode.stopMode 0 1).mode = AnimMode.repeatMode →
          ((AnimatedSprite.mk 1 1 AnimMode.stopMode 0 1).update 1).1.currentFrame = 0 ∧
          ((AnimatedSprite.mk 1 1 AnimMode.stopMode 0 1).update 1).2 = true)) :=
  C10_sprite_update_frame_in_range ⟨1, 1, AnimMode.stopMode, 0, 1⟩ 1
    (by decide) (by decide) (by decide)

/-- The object manager with no live objects. -/
def emptyManager : ObjectManager := ⟨fun _ => []⟩

/-- A concrete bullet object used on several concrete inputs. -/
def bullet0 : GameObj := ⟨1, Kind.Bullet, 3, 4⟩

/-- C2 counterexample: removing an object that is not in the manager
is not a tolerated no-op — `remove_object` on an empty manager raises
`ValueError` from `list.remove`. -/
theorem C2_counterexample :
    emptyManager.remove_object bullet0 =
      .error "ValueError: list.remove(x): x not in list" := rfl

/-- C2 (amended): `remove_object(o)` raises `ValueError` whenever `o`
is absent from the manager's sequence for `o`'s kind (so an event
referencing an already-removed object makes resolution raise); when
`o` is present, the first occurrence is removed and other kinds are
untouched. -/
theorem C2_remove_object_absent_raises (m : ObjectManager) (o : GameObj) :
    (o ∉ m.objects o.kind →
      m.remove_object o = .error "ValueError: list.remove(x): x not in list")
    ∧ (o ∈ m.objects o.kind →
      ∃ m2, m.remove_object o = .ok m2
        ∧ m2.objects o.kind = (m.objects o.kind).erase o
        ∧ ∀ k, k ≠ o.kind → m2.objects k = m.objects k) := by
  constructor
  · intro h
    unfold ObjectManager.remove_object
    rw [listRemove_of_not_mem h]
    rfl
  · intro h
    refine ⟨⟨fun k => if k = o.kind then (m.objects o.kind).erase o else m.objects k⟩,
      ?_, by simp, fun k hk => by simp [hk]⟩
    unfold ObjectManager.remove_object
    rw [listRemove_of_mem h]
    rfl

/-- A manager holding exactly the bullet `bullet0`. -/
def bulletManager : ObjectManager :=
  ⟨fun k => if k = Kind.Bullet then [bullet0] else []⟩

/-- C2 witness: on a concrete manager holding one bullet, removal of
that bullet succeeds and empties the bullet list. -/
theorem C2_witness :
    ∃ m2, bulletManager.remove_object bullet0 = .ok m2
      ∧ m2.objects bullet0.kind = (bulletManager.objects bullet0.kind).erase bullet0
      ∧ ∀ k, k ≠ bullet0.kind → m2.objects k = bulletManager.objects k :=
  (C2_remove_object_absent_raises bulletManager bullet0).2 (by decide)

/-- A 1x1 texture with two frames (3-D mask) whose pixel is opaque
only in the second frame. -/
def laterFrameTex : Texture :=
  ⟨1, 1, 2, 3, fun r c f => if r = 0 ∧ c = 0 ∧ f = 1 then 1 else 0⟩

/-- C4 counterexample: on an animated texture whose pixel is opaque
only in a later frame, `from_texture` marks the pixel collidable even
though the initial frame's mask is 0 there — so the hitbox is not
derived from the base frame alone. -/
theorem C4_counterexample :
    (Hitbox.from_texture laterFrameTex).data 0 0 = 1 ∧
      laterFrameTex.mask 0 0 0 = 0 := by
  constructor <;> decide

/-- C4 (amended): for an animated texture (mask of more than two
dimensions), `from_texture` ORs the opacity mask across frames — a
pixel is collidable iff its mask is positive in at least one frame
(`mask.sum(axis=2) > 0`). -/
theorem C4_from_texture_ors_frames (t : Texture) (r c : Nat) (h : 2 < t.ndim) :
    (Hitbox.from_texture t).data r c = 1 ↔ ∃ f, f < t.frames ∧ 0 < t.mask r c f := by
  unfold Hitbox.from_texture
  rw [if_pos h]
  dsimp only
  rcases Nat.eq_zero_or_pos (∑ f ∈ Finset.range t.frames, t.mask r c f) with hz | hp
  · rw [if_neg (by simp [hz])]
    constructor
    · intro h01; cases h01
    · rintro ⟨f, hf, hpos⟩
      have hzf : t.mask r c f = 0 :=
        (Finset.sum_eq_zero_iff.1 hz) f (Finset.mem_range.2 hf)
      omega
  · rw [if_pos (by simp [hp])]
    refine ⟨fun _ => ?_, fun _ => rfl⟩
    by_contra hno
    push_neg at hno
    have hall : (∑ f ∈ Finset.range t.frames, t.mask r c f) = 0 :=
      Finset.sum_eq_zero fun f hf => by
        have := hno f (Finset.mem_range.1 hf)
        omega
    omega

/-- C4 witness: the amended statement evaluated on the concrete
two-frame texture. -/
theorem C4_witness :
    (Hitbox.from_texture laterFrameTex).data 0 0 = 1 ↔
      ∃ f, f < laterFrameTex.frames ∧ 0 < laterFrameTex.mask 0 0 f :=
  C4_from_texture_ors_frames laterFrameTex 0 0 (by decide)

/-- C6: the source `braillify` takes no inverse flag (inverse mode is
an unimplemented TODO), so the call `braillify(visible_area,
self.inverse)` made by `Canvas.update` raises a `TypeError` for every
frame, camera offset and flag value — the rasterizer never produces
inverted (or any) glyphs through this path. -/
theorem C6_canvas_update_call_raises (f : Frame) (inv : Bool) (camX drawW : Nat) :
    canvasUpdateRows f inv camX drawW =
      .error "TypeError: braillify takes 1 positional argument" := rfl

/-- C1: resolving a (Player, Goal) collision does not reach the win
branch of `resolve_collision`: the guard of the preceding `elif`
evaluates `CollisionTypes.PLAYER_ENEMY`, a member absent from the enum
in `events.py`, so resolution raises `AttributeError` — the player is
not removed, no result is set and the run flag is not cleared. -/
theorem C1_player_goal_resolution_raises (g : GameState) (c : CollisionEvent)
    (h1 : c.collider.kind = Kind.Player) (h2 : c.collided.kind = Kind.Goal) :
    resolve_collision g c =
      .error "AttributeError: type object CollisionTypes has no attribute PLAYER_ENEMY" := by
  unfold resolve_collision
  dsimp only
  simp only [h1, h2]
  rfl

/-- A concrete initial game state with an empty manager. -/
def state0 : GameState := ⟨emptyManager, none, true, [], 0⟩

/-- C1 witness: a concrete player-goal collision event resolved
against a concrete game state raises the `AttributeError`. -/
theorem C1_witness :
    resolve_collision state0 ⟨⟨7, Kind.Player, 5, 6⟩, ⟨8, Kind.Goal, 9, 6⟩⟩ =
      .error "AttributeError: type object CollisionTypes has no attribute PLAYER_ENEMY" :=
  C1_player_goal_resolution_raises state0 ⟨⟨7, Kind.Player, 5, 6⟩, ⟨8, Kind.Goal, 9, 6⟩⟩ rfl rfl

/-- C5: resolving a (Bullet, Enemy) collision removes both the bullet
and the enemy, spawns an explosion at the bullet's center — but plays
the sound `player_hit`, not `spider_hit` (the branch that would play
`spider_hit` is the unreachable duplicate later in the chain). -/
theorem C5_bullet_enemy_plays_player_hit (g : GameState) (c : CollisionEvent)
    (h1 : c.collider.kind = Kind.Bullet) (h2 : c.collided.kind = Kind.Enemy)
    (hb : c.collider ∈ g.manager.objects Kind.Bullet)
    (he : c.collided ∈ g.manager.objects Kind.Enemy) :
    ∃ m2 : ObjectManager,
      resolve_collision g c =
        .ok { g with manager := m2, nextId := g.nextId + 1,
                     sounds := g.sounds ++ ["player_hit"] }
      ∧ m2.objects Kind.Bullet = (g.manager.objects Kind.Bullet).erase c.collider
      ∧ m2.objects Kind.Enemy = (g.manager.objects Kind.Enemy).erase c.collided
      ∧ m2.objects Kind.Explosion = g.manager.objects Kind.Explosion ++
          [⟨g.nextId, Kind.Explosion, c.collider.xc, c.collider.yc⟩] := by
  have hrem1 : g.manager.remove_object c.collider =
      .ok ⟨fun k => if k = Kind.Bullet then (g.manager.objects Kind.Bullet).erase c.collider
                    else g.manager.objects k⟩ := by
    unfold ObjectManager.remove_object
    simp only [h1]
    rw [listRemove_of_mem hb]
    rfl
  have hrem2 : (ObjectManager.mk fun k =>
        if k = Kind.Bullet then (g.manager.objects Kind.Bullet).erase c.collider
        else g.manager.objects k).remove_object c.collided =
      .ok ⟨fun k =>
        if k = Kind.Enemy then (g.manager.objects Kind.Enemy).erase c.collided
        else if k = Kind.Bullet then (g.manager.objects Kind.Bullet).erase c.collider
        else g.manager.objects k⟩ := by
    unfold ObjectManager.remove_object
    simp only [h2]
    rw [if_neg (by decide)]
    rw [listRemove_of_mem he]
    rfl
  have hadd : (ObjectManager.mk fun k =>
        if k = Kind.Enemy then (g.manager.objects Kind.Enemy).erase c.collided
        else if k = Kind.Bullet then (g.manager.objects Kind.Bullet).erase c.collider
        else g.manager.objects k).add_object
          ⟨g.nextId, Kind.Explosion, c.collider.xc, c.collider.yc⟩ =
      .ok ⟨fun k =>
        if k = Kind.Explosion then
          (if k = Kind.Enemy then (g.manager.objects Kind.Enemy).erase c.collided
           else if k = Kind.Bullet then (g.manager.objects Kind.Bullet).erase c.collider
           else g.manager.objects k) ++ [⟨g.nextId, Kind.Explosion, c.collider.xc, c.collider.yc⟩]
        else if k = Kind.Enemy then (g.manager.objects Kind.Enemy).erase c.collided
        else if k = Kind.Bullet then (g.manager.objects Kind.Bullet).erase c.collider
        else g.manager.objects k⟩ := by
    unfold ObjectManager.add_object
    rw [if_neg (fun hc => nomatch hc.1)]
  refine ⟨⟨fun k =>
      if k = Kind.Explosion then
        (if k = Kind.Enemy then (g.manager.objects Kind.Enemy).erase c.collided
         else if k = Kind.Bullet then (g.manager.objects Kind.Bullet).erase c.collider
         else g.manager.objects k) ++
          [⟨g.nextId, Kind.Explosion, c.collider.xc, c.collider.yc⟩]
      else if k = Kind.Enemy then (g.manager.objects Kind.Enemy).erase c.collided
      else if k = Kind.Bullet then (g.manager.objects Kind.Bullet).erase c.collider
      else g.manager.objects k⟩, ?_, ?_, ?_, ?_⟩
  · unfold resolve_collision
    dsimp only
    simp only [h1, h2]
    rw [show collisionTypesValue "BULLET_BLOCK" = .ok (Kind.Bullet, Kind.Block) from rfl, okBind]
    rw [if_neg (by decide)]
    rw [show collisionTypesValue "BULLET_ENEMY" = .ok (Kind.Bullet, Kind.Enemy) from rfl, okBind]
    rw [if_pos rfl]
    rw [hrem1, okBind, hrem2, okBind, hadd, okBind]
    rfl
  · rfl
  · rfl
  · rfl

/-- A concrete enemy object. -/
def enemy0 : GameObj := ⟨2, Kind.Enemy, 7, 8⟩

/-- A concrete state holding one bullet and one enemy. -/
def state1 : GameState :=
  ⟨⟨fun k => if k = Kind.Bullet then [bullet0] else if k = Kind.Enemy then [enemy0] else []⟩,
   none, true, [], 10⟩

/-- C5 witness: resolving the concrete bullet-enemy collision removes
both objects, spawns the explosion at the bullet's center and logs the
sound `player_hit`. -/
theorem C5_witness :
    ∃ m2 : ObjectManager,
      resolve_collision state1 ⟨bullet0, enemy0⟩ =
        .ok { state1 with manager := m2, nextId := state1.nextId + 1,
                          sounds := state1.sounds ++ ["player_hit"] }
      ∧ m2.objects Kind.Bullet = (state1.manager.objects Kind.Bullet).erase bullet0
      ∧ m2.objects Kind.Enemy = (state1.manager.objects Kind.Enemy).erase enemy0
      ∧ m2.objects Kind.Explosion = state1.manager.objects Kind.Explosion ++
          [⟨state1.nextId, Kind.Explosion, bullet0.xc, bullet0.yc⟩] :=
  C5_bullet_enemy_plays_player_hit state1 ⟨bullet0, enemy0⟩ rfl rfl
    (by decide) (by decide)

/-! ## Claims about the rasterizer -/

theorem stepRange_mul_four (m : Nat) :
    stepRange (4 * m) 4 = (List.range m).map (· * 4) := by
  have h : (4 * m + 4 - 1) / 4 = m := by omega
  unfold stepRange
  rw [h]

theorem stepRange_mul_two (n : Nat) :
    stepRange (2 * n) 2 = (List.range n).map (· * 2) := by
  have h : (2 * n + 2 - 1) / 2 = n := by omega
  unfold stepRange
  rw [h]

theorem cell_sum_single (p : Nat → Nat → Nat) (i0 j0 : Nat)
    (hi : i0 < 4) (hj : j0 < 2)
    (hp : ∀ i j, i < 4 → j < 2 → p i j = if i = i0 ∧ j = j0 then 1 else 0) :
    (∑ i ∈ Finset.range 4, ∑ j ∈ Finset.range 2, p i j * pixelMap i j) =
      pixelMap i0 j0 := by
  simp only [Finset.sum_range_succ, Finset.sum_range_zero]
  rw [hp 0 0 (by omega) (by omega), hp 0 1 (by omega) (by omega),
    hp 1 0 (by omega) (by omega), hp 1 1 (by omega) (by omega),
    hp 2 0 (by omega) (by omega), hp 2 1 (by omega) (by omega),
    hp 3 0 (by omega) (by omega), hp 3 1 (by omega) (by omega)]
  interval_cases i0 <;> interval_cases j0 <;> decide

theorem cell_sum_zero (p : Nat → Nat → Nat)
    (hp : ∀ i j, i < 4 → j < 2 → p i j = 0) :
    (∑ i ∈ Finset.range 4, ∑ j ∈ Finset.range 2, p i j * pixelMap i j) = 0 := by
  simp only [Finset.sum_range_succ, Finset.sum_range_zero]
  rw [hp 0 0 (by omega) (by omega), hp 0 1 (by omega) (by omega),
    hp 1 0 (by omega) (by omega), hp 1 1 (by omega) (by omega),
    hp 2 0 (by omega) (by omega), hp 2 1 (by omega) (by omega),
    hp 3 0 (by omega) (by omega), hp 3 1 (by omega) (by omega)]
  decide

theorem pixelMap_dot_bits : ∀ i0, i0 < 4 → ∀ j0, j0 < 2 →
    pixelMap i0 j0 = (if j0 = 0 then [0x01, 0x02, 0x04, 0x40]
                      else [0x08, 0x10, 0x20, 0x80]).getD i0 0 := by
  decide

theorem braille_cell_single_pixel (f : Frame) (m n R C r c : Nat)
    (hm : f.height = 4 * m) (hn : f.width = 2 * n) (hR : R < m) (hC : C < n)
    (hr : r < f.height) (hc : c < f.width)
    (hpx : ∀ i j, i < f.height → j < f.width →
      f.px i j = if i = r ∧ j = c then 1 else 0) :
    braille_cell (f.cellSlice (R * 4) (C * 2)) none =
      .ok (if R = r / 4 ∧ C = c / 2 then 0x2800 + pixelMap (r % 4) (c % 2)
           else 0x2800) := by
  have hsh : (f.cellSlice (R * 4) (C * 2)).height = 4 := by
    dsimp [Frame.cellSlice]; omega
  have hsw : (f.cellSlice (R * 4) (C * 2)).width = 2 := by
    dsimp [Frame.cellSlice]; omega
  unfold braille_cell
  rw [if_pos ⟨Or.inl hsh, Or.inl hsw⟩]
  dsimp only
  have hval : cellValue (f.cellSlice (R * 4) (C * 2)) =
      (if R = r / 4 ∧ C = c / 2 then pixelMap (r % 4) (c % 2) else 0) := by
    unfold cellValue
    simp only [hsh, hsw, broadcastIdx]
    norm_num
    by_cases hRC : R = r / 4 ∧ C = c / 2
    · rw [if_pos hRC]
      obtain ⟨hR4, hC2⟩ := hRC
      apply cell_sum_single _ (r % 4) (c % 2) (by omega) (by omega)
      intro i j hi hj
      dsimp only [Frame.cellSlice]
      rw [hpx (R * 4 + i) (C * 2 + j) (by omega) (by omega)]
      exact if_congr (by constructor <;> intro h <;> omega) rfl rfl
    · rw [if_neg hRC]
      apply cell_sum_zero
      intro i j hi hj
      dsimp only [Frame.cellSlice]
      rw [hpx (R * 4 + i) (C * 2 + j) (by omega) (by omega)]
      rw [if_neg ?_]
      rintro ⟨e1, e2⟩
      exact hRC ⟨by omega, by omega⟩
  rw [hval]
  split_ifs with hRC
  · rfl
  · norm_num

/-- C7: on a buffer whose dimensions are multiples of 2 and 4 and that
holds exactly one set pixel at `(c, r)`, the glyph of the cell
containing the pixel has codepoint `0x2800` plus exactly the dot bit
of the pixel's in-cell position ({0x01,0x02,0x04,0x40} in column 0 and
{0x08,0x10,0x20,0x80} in column 1, rows top to bottom), and every
other cell's glyph is codepoint `0x2800`. -/
theorem C7_single_pixel_dot_mapping (f : Frame) (r c : Nat)
    (hh : 4 ∣ f.height) (hw : 2 ∣ f.width) (hr : r < f.height) (hc : c < f.width)
    (hpx : ∀ i j, i < f.height → j < f.width →
      f.px i j = if i = r ∧ j = c then 1 else 0) :
    braillify f = .ok ((List.range (f.height / 4)).map fun R =>
      (List.range (f.width / 2)).map fun C =>
        if R = r / 4 ∧ C = c / 2 then
          0x2800 + (if c % 2 = 0 then [0x01, 0x02, 0x04, 0x40]
                    else [0x08, 0x10, 0x20, 0x80]).getD (r % 4) 0
        else 0x2800) := by
  obtain ⟨m, hm⟩ := hh
  obtain ⟨n, hn⟩ := hw
  have hpm := pixelMap_dot_bits (r % 4) (by omega) (c % 2) (by omega)
  have h1 : stepRange f.height 4 = (List.range m).map (· * 4) := by
    rw [hm, stepRange_mul_four]
  have h2 : stepRange f.width 2 = (List.range n).map (· * 2) := by
    rw [hn, stepRange_mul_two]
  have hmain : braillify f = .ok ((List.range m).map fun R =>
      (List.range n).map fun C =>
        if R = r / 4 ∧ C = c / 2 then 0x2800 + pixelMap (r % 4) (c % 2)
        else 0x2800) := by
    unfold braillify
    rw [h1]
    simp only [h2, mapE_map]
    apply mapE_ok_of_forall
    intro R hRmem
    apply mapE_ok_of_forall
    intro C hCmem
    exact braille_cell_single_pixel f m n R C r c hm hn
      (List.mem_range.1 hRmem) (List.mem_range.1 hCmem) hr hc hpx
  simp only [hpm] at hmain
  rw [show f.height / 4 = m from by omega, show f.width / 2 = n from by omega]
  exact hmain

/-- A 4x2 frame whose only set pixel is at row 1, column 1. -/
def onePixelFrame : Frame := ⟨4, 2, fun i j => if i = 1 ∧ j = 1 then 1 else 0⟩

/-- C7 witness: the single-pixel frame rasterizes to the one glyph
`0x2800 + 0x10` (dot in column 1, row 1). -/
theorem C7_witness : braillify onePixelFrame = .ok [[0x2810]] := by
  have h := C7_single_pixel_dot_mapping onePixelFrame 1 1 ⟨1, rfl⟩ ⟨1, rfl⟩
    (by decide) (by decide) (fun i j _ _ => rfl)
  rw [h]
  rfl

/-- A 2x2 all-zero frame: its single cell has shape (2, 2), which does
not broadcast against the 4x2 `PIXEL_MAP`. -/
def tinyFrame : Frame := ⟨2, 2, fun _ _ => 0⟩

/-- C3 counterexample: a buffer whose height is not a multiple of 4
makes the rasterizer fault — `braillify` raises a NumPy broadcast
`ValueError` instead of zero-padding the partial cell. -/
theorem C3_counterexample :
    braillify tinyFrame =
      .error "ValueError: operands could not be broadcast together" := rfl

/-- C3 (amended): the final partial cell is not zero-padded.  When the
buffer height leaves a partial cell of 2 or 3 rows (height mod 4 in
{2, 3}) and the width is positive, `braillify` faults with a broadcast
error; a partial cell with a single column (odd width) does not fault
but is broadcast — the lone column is read for both dot columns of the
cell — rather than zero-padded. -/
theorem C3_partial_cells_fault_or_broadcast :
    (∀ f : Frame, 0 < f.width → f.height % 4 = 2 ∨ f.height % 4 = 3 →
      ∃ msg, braillify f = .error msg)
    ∧ (∀ cell : Frame, cell.height = 4 → cell.width = 1 →
        braille_cell cell none = .ok (0x2800 +
          ∑ i ∈ Finset.range 4, ∑ j ∈ Finset.range 2,
            cell.px i 0 * pixelMap i j)) := by
  constructor
  · intro f hw hh
    rcases hres : braillify f with msg | rows
    · exact ⟨msg, rfl⟩
    · exfalso
      have hrow_mem : 4 * (f.height / 4) ∈ stepRange f.height 4 := by
        unfold stepRange
        exact List.mem_map.2 ⟨f.height / 4, List.mem_range.2 (by omega), by omega⟩
      have hcol_mem : 0 ∈ stepRange f.width 2 := by
        unfold stepRange
        exact List.mem_map.2 ⟨0, List.mem_range.2 (by omega), by omega⟩
      obtain ⟨rowGlyphs, hrow⟩ := mapE_ok_elem hres _ hrow_mem
      obtain ⟨glyph, hglyph⟩ := mapE_ok_elem hrow _ hcol_mem
      unfold braille_cell at hglyph
      rw [if_neg ?_] at hglyph
      · cases hglyph
      · dsimp only [Frame.cellSlice]
        rintro ⟨hch, _⟩
        omega
  · intro cell h4 w1
    unfold braille_cell
    rw [if_pos ⟨Or.inl h4, Or.inr w1⟩]
    dsimp only
    unfold cellValue
    simp only [h4, w1, broadcastIdx]
    norm_num

/-- C3 witness: a concrete 2-row, 3-column buffer makes the rasterizer
raise. -/
theorem C3_witness : ∃ msg, braillify ⟨2, 3, fun _ _ => 0⟩ = .error msg :=
  C3_partial_cells_fault_or_broadcast.1 ⟨2, 3, fun _ _ => 0⟩ (by decide) (Or.inl rfl)

end Machinarium
